import Mathlib

/-!
Shallow embedding of the particle-burst explosion system of
`src/explosion.ts` (marcusschiesser/live-coding-3d), plus the
spec-described `resolveHit` of the encounter controller (whose code is not
in the repository sources).

Float arithmetic in the source is modelled by exact rational arithmetic.
-/

/-- A 3-component vector, modelling `THREE.Vector3` and one RGB colour. -/
structure V3 where
  x : ℚ
  y : ℚ
  z : ℚ
deriving DecidableEq, Repr

/-- The state of one `Explosion` object of `src/explosion.ts`:
`positions` models `geometry.attributes.position` (one `V3` per particle,
the flat `Float32Array` of length `3 * particleCount` regrouped in triples),
`colors` models the `color` attribute, `velocities` the `velocities` array,
`opacity` the shared `material.opacity`, `isActive` the `isActive` flag. -/
structure Explosion where
  positions : List V3
  colors : List V3
  velocities : List V3
  opacity : ℚ
  isActive : Bool
deriving DecidableEq, Repr

/-- `particleCount` in the constructor of `Explosion`. -/
def particleCount : ℕ := 100

/-- The constructor `Explosion(scene, position)`.  Randomness is modelled by
a draw stream `r : ℕ → ℚ` standing for the successive `Math.random()`
results; particle `i` consumes draws `5*i .. 5*i+4` in source order
(three velocity components, then the red and green channels).
Velocity per axis is `(Math.random() - 0.5) * 0.3`; colour is
`R = Math.random() * 0.5 + 0.5`, `G = Math.random() * 0.3`, `B = 0`;
all positions start at `position` and `material.opacity` starts at 1. -/
def Explosion.create (position : V3) (r : ℕ → ℚ) : Explosion :=
  { positions := (List.range particleCount).map fun _ => position
  , colors := (List.range particleCount).map fun i =>
      ⟨r (5 * i + 3) * (1 / 2) + 1 / 2, r (5 * i + 4) * (3 / 10), 0⟩
  , velocities := (List.range particleCount).map fun i =>
      ⟨(r (5 * i) - 1 / 2) * (3 / 10),
       (r (5 * i + 1) - 1 / 2) * (3 / 10),
       (r (5 * i + 2) - 1 / 2) * (3 / 10)⟩
  , opacity := 1
  , isActive := true }

/-- The body of the `for` loop of `Explosion.update`, acting on one
particle's velocity: `velocity.y -= 0.01; velocity.multiplyScalar(0.98)`. -/
def gravityDamp (v : V3) : V3 :=
  ⟨v.x * (49 / 50), (v.y - 1 / 100) * (49 / 50), v.z * (49 / 50)⟩

/-- The `for` loop of `Explosion.update` over the particles: each iteration
adds the particle's velocity to its position, applies gravity and damping to
the velocity, multiplies the shared opacity by `0.99`, and sets the `alive`
flag when the (just decayed) opacity exceeds `0.01`.  The state threaded
through is `(opacity, alive)`; the result is the updated particle list and
the final `(opacity, alive)`. -/
def updateLoop : List (V3 × V3) → ℚ → Bool → List (V3 × V3) × ℚ × Bool
  | [], o, a => ([], o, a)
  | (p, v) :: rest, o, a =>
    let res := updateLoop rest (o * (99 / 100))
      (a || decide ((1 : ℚ) / 100 < o * (99 / 100)))
    ((⟨p.x + v.x, p.y + v.y, p.z + v.z⟩, gravityDamp v) :: res.1, res.2)

/-- `Explosion.update(delta)`.  Returns the updated state together with the
boolean return value of the source method.  `delta` is accepted, as in the
source, but never read.  An inactive explosion returns `false` at once and
is untouched; otherwise the particle loop runs, and if no iteration found
the decayed opacity above `0.01` the explosion is deactivated and `false`
is returned, else `true`. -/
def Explosion.update (e : Explosion) (delta : ℚ) : Explosion × Bool :=
  if e.isActive = false then (e, false) else
  let res := updateLoop (e.positions.zip e.velocities) e.opacity false
  let e' : Explosion :=
    { e with positions := res.1.map Prod.fst
           , velocities := res.1.map Prod.snd
           , opacity := res.2.1 }
  if res.2.2 = false then ({ e' with isActive := false }, false)
  else (e', true)

/-- One particle's update, as produced by one iteration of the loop:
new position is old position plus old velocity, new velocity is the old one
after gravity and damping. -/
def stepPV (pv : V3 × V3) : V3 × V3 :=
  (⟨pv.1.x + pv.2.x, pv.1.y + pv.2.y, pv.1.z + pv.2.z⟩, gravityDamp pv.2)

theorem updateLoop_fst (l : List (V3 × V3)) (o : ℚ) (a : Bool) :
    (updateLoop l o a).1 = l.map stepPV := by
  induction l generalizing o a with
  | nil => rfl
  | cons pv rest ih =>
    obtain ⟨p, v⟩ := pv
    simp [updateLoop, stepPV, ih]

theorem updateLoop_opacity (l : List (V3 × V3)) (o : ℚ) (a : Bool) :
    (updateLoop l o a).2.1 = o * (99 / 100) ^ l.length := by
  induction l generalizing o a with
  | nil => simp [updateLoop]
  | cons pv rest ih =>
    obtain ⟨p, v⟩ := pv
    simp only [updateLoop, ih, List.length_cons]
    ring

theorem updateLoop_alive (l : List (V3 × V3)) (o : ℚ) (a : Bool) :
    (updateLoop l o a).2.2 =
      (a || (decide (l ≠ []) && decide ((1 : ℚ) / 100 < o * (99 / 100)))) := by
  induction l generalizing o a with
  | nil => simp [updateLoop]
  | cons pv rest ih =>
    obtain ⟨p, v⟩ := pv
    simp only [updateLoop, ih]
    by_cases h1 : (1 : ℚ) / 100 < o * (99 / 100) <;>
      simp [h1] <;>
      exact fun hr h => Or.inr (by linarith)

/-- The boolean `alive` computed by one tick of `update` on an active
explosion: some loop iteration saw the running opacity above `0.01`, which
(the opacity being decayed before the first check) happens exactly when the
particle list is nonempty and already the first decay leaves it above
`0.01`. -/
def aliveAfter (e : Explosion) : Bool :=
  decide (e.positions.zip e.velocities ≠ []) &&
    decide ((1 : ℚ) / 100 < e.opacity * (99 / 100))

/-- Everything one tick of `update` does to an active explosion, expressed
through the loop lemmas. -/
theorem update_active (e : Explosion) (dt : ℚ) (h : e.isActive = true) :
    e.update dt =
      ({ positions := ((e.positions.zip e.velocities).map stepPV).map Prod.fst
       , colors := e.colors
       , velocities := ((e.positions.zip e.velocities).map stepPV).map Prod.snd
       , opacity := e.opacity * (99 / 100) ^ (e.positions.zip e.velocities).length
       , isActive := aliveAfter e },
       aliveAfter e) := by
  have hb := updateLoop_alive (e.positions.zip e.velocities) e.opacity false
  rw [Bool.false_or] at hb
  simp only [Explosion.update, h, hb, aliveAfter]
  rcases hB : (decide (e.positions.zip e.velocities ≠ []) &&
      decide ((1 : ℚ) / 100 < e.opacity * (99 / 100))) with _ | _ <;>
    simp [updateLoop_fst, updateLoop_opacity]

theorem update_inactive (e : Explosion) (dt : ℚ) (h : e.isActive = false) :
    e.update dt = (e, false) := by
  simp [Explosion.update, h]

/-! ### Concrete states used by witnesses and counterexamples -/

/-- A burst as built by the constructor at the origin, with every
`Math.random()` draw equal to 1/2. -/
def burstDefault : Explosion := Explosion.create ⟨0, 0, 0⟩ fun _ => 1 / 2

/-- A small concrete in-flight burst state (two particles). -/
def burstSmall : Explosion :=
  { positions := [⟨0, 0, 0⟩, ⟨1, 2, 3⟩]
  , colors := [⟨1, 0, 0⟩, ⟨3 / 4, 1 / 5, 0⟩]
  , velocities := [⟨1 / 10, 0, -(1 / 10)⟩, ⟨0, 1 / 20, 0⟩]
  , opacity := 1
  , isActive := true }

/-- A 100-particle burst whose opacity has decayed to 0.02. -/
def burstLowOpacity : Explosion :=
  { positions := List.replicate 100 ⟨0, 0, 0⟩
  , colors := List.replicate 100 ⟨1, 0, 0⟩
  , velocities := List.replicate 100 ⟨0, 0, 0⟩
  , opacity := 1 / 50
  , isActive := true }

/-- A burst that has already been deactivated. -/
def deadBurst : Explosion := { burstSmall with isActive := false }

/-! ### Claims -/

/-- C1: counterexample to the claim as stated.  For the constructor-built
burst at the origin (all draws 1/2, hence 100 particles) one `update` call
multiplies the shared opacity by `0.99 ^ 100`, not by `0.99`: the decay
statement sits inside the per-particle loop of the source. -/
theorem C1_counterexample :
    ¬(((burstDefault.update 1).1).opacity = burstDefault.opacity * (99 / 100)) := by
  have h := update_active burstDefault 1 rfl
  have hop := congrArg (fun p => (p.1).opacity) h
  dsimp only at hop
  have hlen : (burstDefault.positions.zip burstDefault.velocities).length = 100 := by
    simp [burstDefault, Explosion.create, particleCount]
  rw [hop, hlen]
  have h1 : burstDefault.opacity = 1 := rfl
  rw [h1]
  norm_num

/-- C1 (amended): for every active burst whose position and velocity lists
have equal length (as the constructor guarantees), one call to `update`
multiplies the shared opacity by `0.99` once per particle, i.e. the opacity
after the call equals the opacity before times `0.99 ^ particle count`. -/
theorem C1_amended (e : Explosion) (dt : ℚ) (h : e.isActive = true)
    (hlen : e.positions.length = e.velocities.length) :
    ((e.update dt).1).opacity = e.opacity * (99 / 100) ^ e.positions.length := by
  have hop := congrArg (fun p => (p.1).opacity) (update_active e dt h)
  dsimp only at hop
  rw [hop, List.length_zip, ← hlen, min_self]

/-- Witness for C1 (amended) at a concrete two-particle burst. -/
theorem C1_amended_witness :
    burstSmall.isActive = true ∧
      burstSmall.positions.length = burstSmall.velocities.length ∧
      ((burstSmall.update 1).1).opacity =
        burstSmall.opacity * (99 / 100) ^ burstSmall.positions.length :=
  ⟨rfl, rfl, C1_amended burstSmall 1 rfl rfl⟩

/-- C2: counterexample to the claim as stated.  At shared opacity 0.02 with
100 particles, `update` returns `true` (the burst is kept alive for the next
tick) even though the end-of-tick opacity `0.02 * 0.99 ^ 100` is below the
threshold `0.01`: the source compares the running opacity against the
threshold after each particle's decay, not once after all particles. -/
theorem C2_counterexample :
    (burstLowOpacity.update 1).2 = true ∧
      ¬((1 : ℚ) / 100 < ((burstLowOpacity.update 1).1).opacity) := by
  have h := update_active burstLowOpacity 1 rfl
  have hsnd := congrArg Prod.snd h
  have hop := congrArg (fun p => (p.1).opacity) h
  dsimp only at hsnd hop
  have hlen : (burstLowOpacity.positions.zip burstLowOpacity.velocities).length = 100 := by
    simp [burstLowOpacity]
  have hzne : burstLowOpacity.positions.zip burstLowOpacity.velocities ≠ [] := by
    intro hz
    have hl := congrArg List.length hz
    rw [hlen] at hl
    exact absurd hl (by norm_num)
  constructor
  · rw [hsnd]
    have h1 : burstLowOpacity.opacity = 1 / 50 := rfl
    simp only [aliveAfter, Bool.and_eq_true, decide_eq_true_eq, h1]
    exact ⟨hzne, by norm_num⟩
  · rw [hop, hlen]
    have h1 : burstLowOpacity.opacity = 1 / 50 := rfl
    rw [h1]
    norm_num

/-- C2 (amended): for every active burst with at least one particle (and
equal-length position and velocity lists), the return value of `update` —
the burst's aliveness for the next tick — is `true` iff `0.99` times the
pre-tick opacity exceeds `0.01`; the check still depends only on the shared
opacity, never on particle positions or velocities, but it is evaluated
against the running opacity inside the per-particle loop (the first
particle's decay decides), not once after all particles.  The stored
`isActive` flag agrees with the returned value. -/
theorem C2_amended (e : Explosion) (dt : ℚ) (h : e.isActive = true)
    (hne : e.positions ≠ []) (hlen : e.positions.length = e.velocities.length) :
    ((e.update dt).2 = true ↔ (1 : ℚ) / 100 < e.opacity * (99 / 100)) ∧
      ((e.update dt).1).isActive = (e.update dt).2 := by
  have hzne : e.positions.zip e.velocities ≠ [] := by
    intro hz
    apply hne
    have hl := congrArg List.length hz
    rw [List.length_zip, ← hlen, min_self] at hl
    exact List.length_eq_zero.mp hl
  rw [update_active e dt h]
  refine ⟨?_, rfl⟩
  simp [aliveAfter, hzne]

/-- Witness for C2 (amended) at a concrete two-particle burst. -/
theorem C2_amended_witness :
    burstSmall.isActive = true ∧ burstSmall.positions ≠ [] ∧
      burstSmall.positions.length = burstSmall.velocities.length ∧
      (((burstSmall.update 1).2 = true ↔
          (1 : ℚ) / 100 < burstSmall.opacity * (99 / 100)) ∧
        ((burstSmall.update 1).1).isActive = (burstSmall.update 1).2) :=
  ⟨rfl, by simp [burstSmall], rfl, C2_amended burstSmall 1 rfl (by simp [burstSmall]) rfl⟩

/-- C8: `Explosion.update` is independent of its elapsed-time argument:
for any state, updating with `dt₁` and with `dt₂` gives identical resulting
state and identical return value (the simulation is tick-rate-coupled). -/
theorem C8_delta_independent (e : Explosion) (dt₁ dt₂ : ℚ) :
    e.update dt₁ = e.update dt₂ := rfl

/-- Bounds of one velocity component `(Math.random() - 0.5) * 0.3` when the
draw lies in [0, 1). -/
theorem draw_scaled_bounds (q : ℚ) (h0 : 0 ≤ q) (h1 : q < 1) :
    -(3 / 20) ≤ (q - 1 / 2) * (3 / 10) ∧ (q - 1 / 2) * (3 / 10) ≤ 3 / 20 :=
  ⟨by linarith, by linarith⟩

/-- C3: within one tick of `update`, each particle's position is advanced by
the velocity as it stood at the end of the previous tick, and only then is
the velocity updated, by gravity (`y -= 0.01`) followed by damping
(`* 0.98`), i.e. by `gravityDamp`. -/
theorem C3_position_uses_previous_velocity (e : Explosion) (dt : ℚ)
    (h : e.isActive = true) (i : ℕ) (p v : V3)
    (hp : e.positions[i]? = some p) (hv : e.velocities[i]? = some v) :
    ((e.update dt).1).positions[i]? = some ⟨p.x + v.x, p.y + v.y, p.z + v.z⟩ ∧
      ((e.update dt).1).velocities[i]? = some (gravityDamp v) := by
  rw [update_active e dt h]
  have hz : (e.positions.zip e.velocities)[i]? = some (p, v) := by
    rw [List.getElem?_zip_eq_some]
    exact ⟨hp, hv⟩
  constructor <;> simp [List.getElem?_map, hz, stepPV]

/-- Witness for C3 at particle 0 of a concrete two-particle burst. -/
theorem C3_witness :
    burstSmall.isActive = true ∧
      burstSmall.positions[0]? = some ⟨0, 0, 0⟩ ∧
      burstSmall.velocities[0]? = some ⟨1 / 10, 0, -(1 / 10)⟩ ∧
      (((burstSmall.update 1).1).positions[0]? =
          some ⟨0 + 1 / 10, 0 + 0, 0 + -(1 / 10)⟩ ∧
        ((burstSmall.update 1).1).velocities[0]? =
          some (gravityDamp ⟨1 / 10, 0, -(1 / 10)⟩)) :=
  ⟨rfl, rfl, rfl,
    C3_position_uses_previous_velocity burstSmall 1 rfl 0 ⟨0, 0, 0⟩
      ⟨1 / 10, 0, -(1 / 10)⟩ rfl rfl⟩

/-- C4: the shared opacity starts at 1 at creation, and one `update` keeps
it inside [0, 1] and never increases it. -/
theorem C4_opacity_invariant (position : V3) (r : ℕ → ℚ) (e : Explosion)
    (dt : ℚ) (h0 : 0 ≤ e.opacity) (h1 : e.opacity ≤ 1) :
    (Explosion.create position r).opacity = 1 ∧
      0 ≤ ((e.update dt).1).opacity ∧ ((e.update dt).1).opacity ≤ 1 ∧
      ((e.update dt).1).opacity ≤ e.opacity := by
  refine ⟨rfl, ?_⟩
  rcases ha : e.isActive with _ | _
  · rw [update_inactive e dt ha]
    exact ⟨h0, h1, le_refl _⟩
  · have hop := congrArg (fun p => (p.1).opacity) (update_active e dt ha)
    dsimp only at hop
    rw [hop]
    have hq0 : (0 : ℚ) ≤ (99 / 100) ^ (e.positions.zip e.velocities).length := by
      positivity
    have hq1 : ((99 : ℚ) / 100) ^ (e.positions.zip e.velocities).length ≤ 1 := by
      apply pow_le_one₀ <;> norm_num
    refine ⟨mul_nonneg h0 hq0, ?_, mul_le_of_le_one_right h0 hq1⟩
    nlinarith

/-- Witness for C4 at a concrete two-particle burst. -/
theorem C4_witness :
    (0 ≤ burstSmall.opacity ∧ burstSmall.opacity ≤ 1) ∧
      ((Explosion.create ⟨0, 0, 0⟩ fun _ => 1 / 2).opacity = 1 ∧
        0 ≤ ((burstSmall.update 1).1).opacity ∧
        ((burstSmall.update 1).1).opacity ≤ 1 ∧
        ((burstSmall.update 1).1).opacity ≤ burstSmall.opacity) :=
  ⟨⟨by simp [burstSmall], by simp [burstSmall]⟩,
    C4_opacity_invariant ⟨0, 0, 0⟩ (fun _ => 1 / 2) burstSmall 1
      (by simp [burstSmall]) (by simp [burstSmall])⟩

/-- C5: the particle count is fixed at creation (always 100) and no `update`
call changes the lengths of the position, colour or velocity sequences. -/
theorem C5_particle_count (position : V3) (r : ℕ → ℚ) (e : Explosion)
    (dt : ℚ) (hlen : e.positions.length = e.velocities.length) :
    ((Explosion.create position r).positions.length = 100 ∧
      (Explosion.create position r).colors.length = 100 ∧
      (Explosion.create position r).velocities.length = 100) ∧
      (((e.update dt).1).positions.length = e.positions.length ∧
        ((e.update dt).1).colors.length = e.colors.length ∧
        ((e.update dt).1).velocities.length = e.velocities.length) := by
  refine ⟨⟨by simp [Explosion.create, particleCount],
    by simp [Explosion.create, particleCount],
    by simp [Explosion.create, particleCount]⟩, ?_⟩
  rcases ha : e.isActive with _ | _
  · rw [update_inactive e dt ha]
    exact ⟨rfl, rfl, rfl⟩
  · rw [update_active e dt ha]
    refine ⟨?_, rfl, ?_⟩ <;> simp [List.length_zip, hlen]

/-- Witness for C5 at a concrete two-particle burst. -/
theorem C5_witness :
    burstSmall.positions.length = burstSmall.velocities.length ∧
      (((Explosion.create ⟨0, 0, 0⟩ fun _ => 1 / 2).positions.length = 100 ∧
        (Explosion.create ⟨0, 0, 0⟩ fun _ => 1 / 2).colors.length = 100 ∧
        (Explosion.create ⟨0, 0, 0⟩ fun _ => 1 / 2).velocities.length = 100) ∧
        (((burstSmall.update 1).1).positions.length = burstSmall.positions.length ∧
          ((burstSmall.update 1).1).colors.length = burstSmall.colors.length ∧
          ((burstSmall.update 1).1).velocities.length = burstSmall.velocities.length)) :=
  ⟨rfl, C5_particle_count ⟨0, 0, 0⟩ (fun _ => 1 / 2) burstSmall 1 rfl⟩

/-- C6: whatever values the underlying draws take in [0, 1), every velocity
component produced by the constructor lies within [-0.15, 0.15]. -/
theorem C6_velocity_range (position : V3) (r : ℕ → ℚ)
    (hr : ∀ n, 0 ≤ r n ∧ r n < 1) (v : V3)
    (hv : v ∈ (Explosion.create position r).velocities) :
    (-(3 / 20) ≤ v.x ∧ v.x ≤ 3 / 20) ∧ (-(3 / 20) ≤ v.y ∧ v.y ≤ 3 / 20) ∧
      (-(3 / 20) ≤ v.z ∧ v.z ≤ 3 / 20) := by
  simp only [Explosion.create, List.mem_map, List.mem_range] at hv
  obtain ⟨i, -, rfl⟩ := hv
  exact ⟨draw_scaled_bounds (r (5 * i)) (hr _).1 (hr _).2,
    draw_scaled_bounds (r (5 * i + 1)) (hr _).1 (hr _).2,
    draw_scaled_bounds (r (5 * i + 2)) (hr _).1 (hr _).2⟩

/-- Witness for C6 with all draws equal to 1/2. -/
theorem C6_witness :
    (-(3 / 20) ≤ (((1 : ℚ) / 2 - 1 / 2) * (3 / 10)) ∧
        (((1 : ℚ) / 2 - 1 / 2) * (3 / 10)) ≤ 3 / 20) ∧
      (-(3 / 20) ≤ (((1 : ℚ) / 2 - 1 / 2) * (3 / 10)) ∧
        (((1 : ℚ) / 2 - 1 / 2) * (3 / 10)) ≤ 3 / 20) ∧
      (-(3 / 20) ≤ (((1 : ℚ) / 2 - 1 / 2) * (3 / 10)) ∧
        (((1 : ℚ) / 2 - 1 / 2) * (3 / 10)) ≤ 3 / 20) :=
  C6_velocity_range ⟨0, 0, 0⟩ (fun _ => 1 / 2)
    (fun _ => ⟨by norm_num, by norm_num⟩)
    ⟨(1 / 2 - 1 / 2) * (3 / 10), (1 / 2 - 1 / 2) * (3 / 10),
      (1 / 2 - 1 / 2) * (3 / 10)⟩
    (List.mem_map.mpr
      ⟨0, List.mem_range.mpr (by norm_num [particleCount]), rfl⟩)

/-- C7: whatever values the underlying draws take in [0, 1), every colour
produced by the constructor has red in [0.5, 1], green in [0, 0.3] and blue
exactly 0. -/
theorem C7_color_range (position : V3) (r : ℕ → ℚ)
    (hr : ∀ n, 0 ≤ r n ∧ r n < 1) (c : V3)
    (hc : c ∈ (Explosion.create position r).colors) :
    (1 / 2 ≤ c.x ∧ c.x ≤ 1) ∧ (0 ≤ c.y ∧ c.y ≤ 3 / 10) ∧ c.z = 0 := by
  simp only [Explosion.create, List.mem_map, List.mem_range] at hc
  obtain ⟨i, -, rfl⟩ := hc
  have h3 := hr (5 * i + 3)
  have h4 := hr (5 * i + 4)
  have hx1 : (1 : ℚ) / 2 ≤ r (5 * i + 3) * (1 / 2) + 1 / 2 := by linarith [h3.1]
  have hx2 : r (5 * i + 3) * (1 / 2) + 1 / 2 ≤ 1 := by linarith [h3.2]
  have hy1 : (0 : ℚ) ≤ r (5 * i + 4) * (3 / 10) := by linarith [h4.1]
  have hy2 : r (5 * i + 4) * (3 / 10) ≤ 3 / 10 := by linarith [h4.2]
  exact ⟨⟨hx1, hx2⟩, ⟨hy1, hy2⟩, rfl⟩

/-- Witness for C7 with all draws equal to 1/2. -/
theorem C7_witness :
    ((1 : ℚ) / 2 ≤ ((1 : ℚ) / 2) * (1 / 2) + 1 / 2 ∧
        ((1 : ℚ) / 2) * (1 / 2) + 1 / 2 ≤ 1) ∧
      ((0 : ℚ) ≤ ((1 : ℚ) / 2) * (3 / 10) ∧
        ((1 : ℚ) / 2) * (3 / 10) ≤ 3 / 10) ∧
      (0 : ℚ) = 0 :=
  C7_color_range ⟨0, 0, 0⟩ (fun _ => 1 / 2)
    (fun _ => ⟨by norm_num, by norm_num⟩)
    ⟨(1 / 2) * (1 / 2) + 1 / 2, (1 / 2) * (3 / 10), 0⟩
    (List.mem_map.mpr
      ⟨0, List.mem_range.mpr (by norm_num [particleCount]), rfl⟩)

/-- The result of the spec's hit test: `HitResult {Miss | Hit(point)}`. -/
inductive HitResult where
  | Miss : HitResult
  | Hit : V3 → HitResult
deriving DecidableEq, Repr

/-- Modelled from the spec: the EncounterController's state — `target`
presence, `score`, the optional `pendingRespawn` deadline, and the effect
simulator's `activeBursts`.  The controller's code is not among the
repository's source files; only the spec (§3, §4.2) describes it. -/
structure EncounterState where
  targetPresent : Bool
  score : ℕ
  pendingRespawn : Option ℚ
  activeBursts : List Explosion

/-- Modelled from the spec: `resolveHit(ray)` of §4.2, whose code is not in
the repository sources.  The external ray-geometry intersection query is
abstracted as `intersection : Option V3` (the hit point, when the ray meets
the Present target's geometry); `now` is the current time and `r` the
random stream for the spawned burst.  It returns `Miss` when no target is
Present or the ray does not intersect, leaving the state unchanged; on a
hit it removes the target, adds the fixed reward 100 to the score, spawns
one burst at the reported point and schedules a respawn 2 seconds later. -/
def resolveHit (s : EncounterState) (now : ℚ) (intersection : Option V3)
    (r : ℕ → ℚ) : HitResult × EncounterState :=
  if s.targetPresent = false then (HitResult.Miss, s)
  else
    match intersection with
    | none => (HitResult.Miss, s)
    | some pt =>
      (HitResult.Hit pt,
        { targetPresent := false
        , score := s.score + 100
        , pendingRespawn := some (now + 2)
        , activeBursts := Explosion.create pt r :: s.activeBursts })

/-- C9: `resolveHit` is total (it never throws), and whenever no target is
Present or the ray does not intersect it returns `Miss` and causes no state
change: score, target presence, pending respawn and the active bursts are
all left exactly as they were. -/
theorem C9_resolveHit_miss_no_change (s : EncounterState) (now : ℚ)
    (intersection : Option V3) (r : ℕ → ℚ)
    (h : s.targetPresent = false ∨ intersection = none) :
    (resolveHit s now intersection r).1 = HitResult.Miss ∧
      (resolveHit s now intersection r).2 = s := by
  rcases h with h | h
  · simp [resolveHit, h]
  · subst h
    by_cases hp : s.targetPresent = false <;> simp [resolveHit, hp]

/-- An encounter state with no Present target. -/
def encounterNoTarget : EncounterState :=
  { targetPresent := false, score := 0, pendingRespawn := none
  , activeBursts := [] }

/-- Witness for C9 at a concrete state with no target. -/
theorem C9_witness :
    (encounterNoTarget.targetPresent = false ∨ (none : Option V3) = none) ∧
      ((resolveHit encounterNoTarget 0 none fun _ => 1 / 2).1 = HitResult.Miss ∧
        (resolveHit encounterNoTarget 0 none fun _ => 1 / 2).2 = encounterNoTarget) :=
  ⟨Or.inl rfl,
    C9_resolveHit_miss_no_change encounterNoTarget 0 none (fun _ => 1 / 2)
      (Or.inl rfl)⟩

/-- C10: the dead state is absorbing: once an `update` call has returned
`false`, every later `update` call returns `false` and leaves the whole
state (positions, velocities, colours, opacity, activity flag) untouched. -/
theorem C10_dead_absorbing (e : Explosion) (dt dt' : ℚ)
    (h : (e.update dt).2 = false) :
    ((e.update dt).1).update dt' = ((e.update dt).1, false) := by
  apply update_inactive
  rcases ha : e.isActive with _ | _
  · rw [update_inactive e dt ha]
    exact ha
  · rw [update_active e dt ha] at h ⊢
    exact h

/-- Witness for C10 at a concrete deactivated burst. -/
theorem C10_witness :
    (deadBurst.update 1).2 = false ∧
      ((deadBurst.update 1).1).update 2 = ((deadBurst.update 1).1, false) :=
  ⟨rfl, C10_dead_absorbing deadBurst 1 2 rfl⟩
